import Mathlib

/-!
Shallow embedding of the meme-composition pipeline of the `chatmeme`
repository (src/app.py, src/groq_handler.py, src/image_handler.py), with
theorems settling the frozen claims about it.

Conventions of the embedding:
* Python strings are `List Char`; `str.lower()` is `pyLower` (`Char.toLower`
  per character, which agrees with Python on the ASCII text involved);
  Python's substring test `needle in hay` is `containsSub`.
* The external language-model and image-search services are untrusted
  collaborators: their possible answers are the embedding's input data
  (an inductive response type, or a function giving the outcome of each
  call), and the handlers are functions of those answers.
* Python exceptions caught by a `try`/`except` that returns a fallback are
  modelled by `Option`/pattern matches returning the fallback value.
* Python `int()` on the nonnegative reals that occur here is `Nat` floor
  division (float arithmetic is modelled by exact rational arithmetic).
-/

namespace ChatMeme

/-- Python `s.lower()` on a string, character by character. -/
def pyLower (s : List Char) : List Char := s.map Char.toLower

/-- Python's substring containment test `needle in hay`. -/
def containsSub (needle : List Char) : List Char → Bool
  | [] => needle.isEmpty
  | c :: rest => List.isPrefixOf needle (c :: rest) || containsSub needle rest

/-! ## `GroqHandler.analyze_meme_request` (src/groq_handler.py:102-148)

The model's reply is untrusted text.  `json.loads` either fails
(`AnalyzerResponse.malformed`, any non-JSON reply) or yields a record whose
three required keys may each be absent (`Option`): an absent key makes
`result["..."]` raise `KeyError`, caught by the handler's `except`, which
returns `None`. -/

/-- A parsed JSON object as `analyze_meme_request` reads it: each required
key either absent (`none`) or a list of strings. -/
structure RawAnalysis where
  subjects : Option (List String)
  search_queries : Option (List String)
  captions : Option (List String)
deriving DecidableEq

/-- The analyzer model's reply: malformed (non-JSON) text, or a parsed object. -/
inductive AnalyzerResponse where
  | malformed
  | parsed (r : RawAnalysis)
deriving DecidableEq

/-- The dictionary `analyze_meme_request` returns on success. -/
structure AnalysisResult where
  subjects : List String
  search_queries : List String
  captions : List String
deriving DecidableEq

/-- src/groq_handler.py:123-148: parse the reply, truncate the three lists
to the shortest length (lines 139-142), return the result; any exception
(malformed JSON, missing key) is caught and yields `none` (line 148). -/
def analyze_meme_request : AnalyzerResponse → Option AnalysisResult
  | .malformed => none
  | .parsed r =>
    match r.subjects, r.search_queries, r.captions with
    | some s, some q, some c =>
      let min_length := min (min s.length q.length) c.length
      some ⟨s.take min_length, q.take min_length, c.take min_length⟩
    | _, _, _ => none

/-- C1: whenever `analyze_meme_request` returns a result, its three lists
have equal length, namely the minimum of the lengths the model supplied,
and each list is the corresponding supplied list truncated to that length. -/
theorem analyze_meme_request_reconciles (resp : AnalyzerResponse)
    (a : AnalysisResult) (h : analyze_meme_request resp = some a) :
    a.subjects.length = a.search_queries.length ∧
    a.search_queries.length = a.captions.length ∧
    ∃ s q c, resp = AnalyzerResponse.parsed ⟨some s, some q, some c⟩ ∧
      a.subjects.length = min (min s.length q.length) c.length ∧
      a.subjects = s.take (min (min s.length q.length) c.length) ∧
      a.search_queries = q.take (min (min s.length q.length) c.length) ∧
      a.captions = c.take (min (min s.length q.length) c.length) := by
  cases resp with
  | malformed => simp [analyze_meme_request] at h
  | parsed r =>
    obtain ⟨os, oq, oc⟩ := r
    cases os with
    | none => simp [analyze_meme_request] at h
    | some s =>
      cases oq with
      | none => simp [analyze_meme_request] at h
      | some q =>
        cases oc with
        | none => simp [analyze_meme_request] at h
        | some c =>
          simp only [analyze_meme_request, Option.some.injEq] at h
          subst h
          refine ⟨?_, ?_, s, q, c, rfl, ?_, rfl, rfl, rfl⟩ <;>
            simp [List.length_take]

/-- Witness for C1: the 3/2/3 example from the spec, truncated to 2/2/2. -/
theorem analyze_meme_request_reconciles_witness :
    (⟨["a", "b"], ["q1", "q2"], ["c1", "c2"]⟩ : AnalysisResult).subjects.length =
      (⟨["a", "b"], ["q1", "q2"], ["c1", "c2"]⟩ : AnalysisResult).search_queries.length :=
  (analyze_meme_request_reconciles
    (.parsed ⟨some ["a", "b", "c"], some ["q1", "q2"], some ["c1", "c2", "c3"]⟩)
    ⟨["a", "b"], ["q1", "q2"], ["c1", "c2"]⟩ (by decide)).1

/-- C2 counterexample: a reply whose required keys are all present but whose
`captions` list is empty is NOT rejected: the handler truncates all three
lists to length 0 and returns a result with empty lists instead of `none`. -/
theorem analyze_meme_request_empty_list_cex :
    analyze_meme_request
        (.parsed ⟨some ["cat"], some ["funny cat photo"], some []⟩) =
      some ⟨[], [], []⟩ ∧
    analyze_meme_request
        (.parsed ⟨some ["cat"], some ["funny cat photo"], some []⟩) ≠ none := by
  decide

/-- C2 amended: `analyze_meme_request` returns `none` exactly when the reply
is malformed JSON or a required key is absent; a reply whose required lists
are present but (some) empty instead yields a result whose lists are all
truncated to the empty list. -/
theorem analyze_meme_request_none_iff (resp : AnalyzerResponse) :
    analyze_meme_request resp = none ↔
      (resp = AnalyzerResponse.malformed ∨
        ∃ r, resp = AnalyzerResponse.parsed r ∧
          (r.subjects = none ∨ r.search_queries = none ∨ r.captions = none)) := by
  cases resp with
  | malformed => simp [analyze_meme_request]
  | parsed r =>
    obtain ⟨os, oq, oc⟩ := r
    cases os <;> cases oq <;> cases oc <;> simp [analyze_meme_request]

/-! ## `ImageHandler.search_images` (src/image_handler.py:46-72)

The DuckDuckGo backend is an external collaborator; each call to it either
raises a transport error or returns an ordered list of candidate image URLs.
The embedding gives the backend as a function from the call index (0 for the
first call, 1 for a hypothetical second call, ...) to its outcome, so that a
retry policy would be visible as a consultation of indices beyond 0:
`search_images` consults index 0 only, because the source makes exactly one
call inside a single `try` (lines 48-56) and its `except` returns `[]`
(lines 70-72). -/

/-- A transport-level failure of the search backend. -/
inductive TransportError where
  | failure
deriving DecidableEq

/-- src/image_handler.py:60-63: the filter applied to each candidate URL:
`img['image'].startswith('http')` (case-sensitive on the original string)
and `img['image'].lower().endswith(ext)` for one of `.jpg`, `.jpeg`,
`.png`. -/
def isValidUrl (u : List Char) : Bool :=
  List.isPrefixOf "http".toList u &&
    ([".jpg".toList, ".jpeg".toList, ".png".toList].any fun ext =>
      List.isSuffixOf ext (pyLower u))

/-- src/image_handler.py:58-66: the collection loop.  Each candidate passing
`isValidUrl` is appended to the accumulator; after each iteration the loop
breaks as soon as `len(valid_urls) >= num_images`. -/
def collectValid (num : ℕ) : List (List Char) → List (List Char) → List (List Char)
  | [], acc => acc
  | u :: rest, acc =>
    let acc2 := if isValidUrl u then acc ++ [u] else acc
    if num ≤ acc2.length then acc2 else collectValid num rest acc2

/-- src/image_handler.py:46-72: one backend call (attempt index 0); on a
transport error the `except` returns `[]`; on success the candidates are
filtered, collected with early break, and truncated to `num_images`
(line 68). -/
def search_images (backend : ℕ → Except TransportError (List (List Char)))
    (num_images : ℕ) : List (List Char) :=
  match backend 0 with
  | .error _ => []
  | .ok images => (collectValid num_images images []).take num_images

/-- A backend that raises a transport error on the first two attempts and
would return one valid URL on the third. -/
def failTwiceBackend : ℕ → Except TransportError (List (List Char)) :=
  fun n => if n < 2 then .error .failure else .ok ["http://third.jpg".toList]

/-- C3 counterexample: with a backend that fails twice and succeeds on the
third attempt, `search_images` returns `[]`, not the successful result
(which would be the nonempty `["http://third.jpg"]`): the source has no
retry loop at all. -/
theorem search_images_no_retry_cex :
    search_images failTwiceBackend 3 = [] ∧
    search_images (fun _ => .ok ["http://third.jpg".toList]) 3 =
      ["http://third.jpg".toList] ∧
    (["http://third.jpg".toList] : List (List Char)) ≠ [] := by
  decide

/-- C3 amended: `search_images` makes exactly one backend call: its result
depends only on the outcome of attempt 0, and any transport error on that
single attempt yields the empty sequence immediately. -/
theorem search_images_single_attempt
    (b b2 : ℕ → Except TransportError (List (List Char))) (n : ℕ)
    (hfirst : b 0 = b2 0) :
    search_images b n = search_images b2 n ∧
    (∀ e, b 0 = Except.error e → search_images b n = []) := by
  constructor
  · unfold search_images
    rw [hfirst]
  · intro e he
    unfold search_images
    rw [he]

/-- Witness for the amended C3 at the concrete failing backend. -/
theorem search_images_single_attempt_witness :
    search_images failTwiceBackend 3 =
      search_images (fun _ => Except.error TransportError.failure) 3 ∧
    (∀ e, failTwiceBackend 0 = Except.error e →
      search_images failTwiceBackend 3 = []) :=
  search_images_single_attempt failTwiceBackend
    (fun _ => Except.error TransportError.failure) 3 rfl

/-- `collectValid` only ever appends candidates, in backend order, that pass
the filter: its output is the accumulator followed by a sublist of the
input all of whose members are valid. -/
theorem collectValid_spec (num : ℕ) (l : List (List Char)) :
    ∀ acc, ∃ r, collectValid num l acc = acc ++ r ∧
      r.Sublist l ∧ r.all isValidUrl = true := by
  induction l with
  | nil => intro acc; exact ⟨[], by simp [collectValid]⟩
  | cons u rest ih =>
    intro acc
    have hcons : collectValid num (u :: rest) acc =
        (if num ≤ (if isValidUrl u then acc ++ [u] else acc).length
          then (if isValidUrl u then acc ++ [u] else acc)
          else collectValid num rest (if isValidUrl u then acc ++ [u] else acc)) :=
      rfl
    by_cases hv : isValidUrl u = true
    · rw [if_pos hv] at hcons
      by_cases hstop : num ≤ (acc ++ [u]).length
      · rw [if_pos hstop] at hcons
        exact ⟨[u], hcons, List.cons_sublist_cons.mpr (List.nil_sublist rest),
          by simp [hv]⟩
      · rw [if_neg hstop] at hcons
        obtain ⟨r, hr, hsub, hall⟩ := ih (acc ++ [u])
        rw [hr, List.append_assoc] at hcons
        exact ⟨u :: r, hcons, List.cons_sublist_cons.mpr hsub,
          by simp [List.all_cons, hv, hall]⟩
    · have hv2 : ¬(isValidUrl u = true) := hv
      rw [if_neg hv2] at hcons
      by_cases hstop : num ≤ acc.length
      · rw [if_pos hstop] at hcons
        exact ⟨[], by simpa using hcons, List.nil_sublist _, rfl⟩
      · rw [if_neg hstop] at hcons
        obtain ⟨r, hr, hsub, hall⟩ := ih acc
        rw [hr] at hcons
        exact ⟨r, hcons, List.sublist_cons_of_sublist u hsub, hall⟩

/-- C9: on a successful backend call, every URL `search_images` returns
starts with the prefix `http` and ends (case-insensitively) in `.jpg`,
`.jpeg` or `.png`; the output is a sublist of the backend's candidates (its
order preserved) and has at most `num_images` entries. -/
theorem search_images_filter_props (imgs : List (List Char)) (n : ℕ) :
    ((search_images (fun _ => Except.ok imgs) n).all fun u =>
      List.isPrefixOf "http".toList u &&
        (List.isSuffixOf ".jpg".toList (pyLower u) ||
          List.isSuffixOf ".jpeg".toList (pyLower u) ||
          List.isSuffixOf ".png".toList (pyLower u))) = true ∧
    (search_images (fun _ => Except.ok imgs) n).Sublist imgs ∧
    (search_images (fun _ => Except.ok imgs) n).length ≤ n := by
  obtain ⟨r, hr, hsub, hall⟩ := collectValid_spec n imgs []
  have hout : search_images (fun _ => Except.ok imgs) n = r.take n := by
    simp [search_images, hr]
  refine ⟨?_, ?_, ?_⟩
  · rw [hout]
    rw [List.all_eq_true] at hall ⊢
    intro u hu
    have hmem : u ∈ r := List.mem_of_mem_take hu
    have := hall u hmem
    simp only [isValidUrl, List.any_cons, List.any_nil, Bool.and_eq_true,
      Bool.or_eq_true] at this
    simp only [Bool.and_eq_true, Bool.or_eq_true]
    tauto
  · rw [hout]
    exact (List.take_sublist n r).trans hsub
  · rw [hout, List.length_take]
    exact min_le_left _ _

/-! ## `ImageHandler.resize_image` (src/image_handler.py:92-111)

`MAX_SIZE = 700`, `MIN_SIZE = 300` (lines 32-33).  `aspect = width/height`
is exact rational arithmetic in the source's floats; `int(x)` on the
nonnegative values involved is floor, so `int(new_width / aspect)` is
`new_width * h / w` in natural-number division, and `int(300 * aspect)` is
`300 * w / h`. -/

/-- src/image_handler.py:92-111, on a source image of width `w` and height
`h` and a target cell `(tw, th)`, returning the `(new_width, new_height)`
passed to `img.resize`.  `aspect > 1` iff `h < w`. -/
def resize_image (w h tw th : ℕ) : ℕ × ℕ :=
  if h < w then
    let nw := min tw 700
    let nh := nw * h / w
    if nh < 300 then (300 * w / h, 300) else (nw, nh)
  else
    let nh := min th 700
    let nw := nh * w / h
    if nw < 300 then (300, 300 * h / w) else (nw, nh)

/-- C6 counterexample: a 1000x100 source image (aspect ratio 10) resized
into a 700x700 target comes out as 3000x300: the minimum-size adjustment
recomputes the width as `int(300 * aspect)` with no maximum clamp, so an
output dimension exceeds `MAX_SIZE = 700`. -/
theorem resize_image_max_bound_cex :
    resize_image 1000 100 700 700 = (3000, 300) ∧ ¬(3000 ≤ 700) := by
  decide

/-- C6 amended: `resize_image` keeps both output dimensions at least
`MIN_SIZE = 300`, preserves the aspect ratio up to integer rounding (one
output dimension is the floor-scaled image of the other), and respects
`MAX_SIZE = 700` on both dimensions whenever the source aspect ratio lies
within [3/7, 7/3]; outside that range the minimum-size adjustment can push
the recomputed dimension past 700. -/
theorem resize_image_bounds (w h tw th : ℕ) (hw : 0 < w) (hh : 0 < h) :
    300 ≤ (resize_image w h tw th).1 ∧
    300 ≤ (resize_image w h tw th).2 ∧
    ((resize_image w h tw th).2 = (resize_image w h tw th).1 * h / w ∨
      (resize_image w h tw th).1 = (resize_image w h tw th).2 * w / h) ∧
    (3 * w ≤ 7 * h → 3 * h ≤ 7 * w →
      (resize_image w h tw th).1 ≤ 700 ∧ (resize_image w h tw th).2 ≤ 700) := by
  by_cases hwide : h < w
  · by_cases hbump : min tw 700 * h / w < 300
    · have heq : resize_image w h tw th = (300 * w / h, 300) := by
        unfold resize_image
        rw [if_pos hwide, if_pos hbump]
      rw [heq]
      have h300 : 300 ≤ 300 * w / h := by
        rw [Nat.le_div_iff_mul_le hh]
        exact Nat.mul_le_mul_left 300 (Nat.le_of_lt hwide)
      refine ⟨h300, le_refl 300, Or.inr rfl, ?_⟩
      intro h37 _
      constructor
      · have hd : 300 * w / h ≤ 700 * h / h := by
          apply Nat.div_le_div_right
          omega
        rwa [Nat.mul_div_cancel 700 hh] at hd
      · omega
    · have heq : resize_image w h tw th = (min tw 700, min tw 700 * h / w) := by
        unfold resize_image
        rw [if_pos hwide, if_neg hbump]
      rw [heq]
      push_neg at hbump
      have hle : min tw 700 * h / w ≤ min tw 700 := by
        calc min tw 700 * h / w ≤ min tw 700 * w / w := by
              apply Nat.div_le_div_right
              exact Nat.mul_le_mul_left _ (Nat.le_of_lt hwide)
          _ = min tw 700 := Nat.mul_div_cancel _ hw
      refine ⟨le_trans hbump hle, hbump, Or.inl rfl, ?_⟩
      intro _ _
      exact ⟨min_le_right tw 700, le_trans hle (min_le_right tw 700)⟩
  · have hhw : w ≤ h := Nat.le_of_not_lt hwide
    by_cases hbump : min th 700 * w / h < 300
    · have heq : resize_image w h tw th = (300, 300 * h / w) := by
        unfold resize_image
        rw [if_neg hwide, if_pos hbump]
      rw [heq]
      have h300 : 300 ≤ 300 * h / w := by
        rw [Nat.le_div_iff_mul_le hw]
        exact Nat.mul_le_mul_left 300 hhw
      refine ⟨le_refl 300, h300, Or.inl rfl, ?_⟩
      intro _ h37
      refine ⟨by omega, ?_⟩
      have hd : 300 * h / w ≤ 700 * w / w := by
        apply Nat.div_le_div_right
        omega
      rwa [Nat.mul_div_cancel 700 hw] at hd
    · have heq : resize_image w h tw th = (min th 700 * w / h, min th 700) := by
        unfold resize_image
        rw [if_neg hwide, if_neg hbump]
      rw [heq]
      push_neg at hbump
      have hle : min th 700 * w / h ≤ min th 700 := by
        calc min th 700 * w / h ≤ min th 700 * h / h := by
              apply Nat.div_le_div_right
              exact Nat.mul_le_mul_left _ hhw
          _ = min th 700 := Nat.mul_div_cancel _ hh
      refine ⟨hbump, le_trans hbump hle, Or.inr rfl, ?_⟩
      intro _ _
      exact ⟨le_trans hle (min_le_right th 700), min_le_right th 700⟩

/-- Witness for the amended C6 at the degenerate 1000x100 source image. -/
theorem resize_image_bounds_witness :
    300 ≤ (resize_image 1000 100 700 700).1 ∧
    300 ≤ (resize_image 1000 100 700 700).2 ∧
    ((resize_image 1000 100 700 700).2 =
        (resize_image 1000 100 700 700).1 * 100 / 1000 ∨
      (resize_image 1000 100 700 700).1 =
        (resize_image 1000 100 700 700).2 * 1000 / 100) ∧
    (3 * 1000 ≤ 7 * 100 → 3 * 100 ≤ 7 * 1000 →
      (resize_image 1000 100 700 700).1 ≤ 700 ∧
      (resize_image 1000 100 700 700).2 ≤ 700) :=
  resize_image_bounds 1000 100 700 700 (by decide) (by decide)

/-! ## Fetch-or-cache and `create_meme`
(src/image_handler.py:293-406; the per-image loop of `create_collage`,
src/image_handler.py:113-140, is structurally identical)

Bitmaps are modelled as a free inductive recording every processing step
applied to a raw download, so that "the cached bitmap is used as-is" is the
literal absence of any constructor application.  The cache and the network
are external state, given as functions from URL to what they hold. -/

/-- A PIL color mode, as far as the handlers distinguish them. -/
inductive Mode where
  | rgb
  | rgba
deriving DecidableEq

/-- A bitmap together with the processing history the handlers applied. -/
inductive Img where
  | raw (id : ℕ)
  | exifT (i : Img)
  | converted (m : Mode) (i : Img)
  | bgRemoved (i : Img)
deriving DecidableEq

/-- src/image_handler.py:307-315 (fresh-download path of `create_meme`):
EXIF transpose, mode conversion (RGBA when background removal is requested,
RGB otherwise), then background removal when requested. -/
def download_and_process (remove_bg : Bool) (raw : Img) : Img :=
  let i1 := Img.exifT raw
  let i2 := Img.converted (if remove_bg then Mode.rgba else Mode.rgb) i1
  if remove_bg then Img.bgRemoved i2 else i2

/-- src/image_handler.py:300-317, the per-image step of `create_meme`: on a
cache hit the cached bitmap is returned as-is (line 303); otherwise the
download either fails (that image is skipped: line 318's `except` +
`continue`) or is processed and returned. -/
def fetch_image_meme (cache download : List Char → Option Img)
    (remove_bg : Bool) (url : List Char) : Option Img :=
  match cache url with
  | some img => some img
  | none =>
    match download url with
    | none => none
    | some raw => some (download_and_process remove_bg raw)

/-- src/image_handler.py:120-137, the per-image step of `create_collage`:
identical in structure to the `create_meme` step (cache hit used as-is at
line 123, fresh download processed at lines 125-135). -/
def fetch_image_collage (cache download : List Char → Option Img)
    (remove_bg : Bool) (url : List Char) : Option Img :=
  match cache url with
  | some img => some img
  | none =>
    match download url with
    | none => none
    | some raw => some (download_and_process remove_bg raw)

/-- C10: in both `create_meme` and `create_collage`, a cache hit returns
the cached bitmap unchanged — no EXIF transpose, mode conversion or
background removal is applied — and the result is independent of the
current call's background-removal option. -/
theorem cached_image_bypasses_processing (cache download : List Char → Option Img)
    (url : List Char) (img : Img) (h : cache url = some img) :
    (∀ remove_bg, fetch_image_meme cache download remove_bg url = some img) ∧
    (∀ remove_bg, fetch_image_collage cache download remove_bg url = some img) ∧
    fetch_image_meme cache download true url =
      fetch_image_meme cache download false url ∧
    fetch_image_collage cache download true url =
      fetch_image_collage cache download false url := by
  refine ⟨fun rb => ?_, fun rb => ?_, ?_, ?_⟩ <;>
    simp [fetch_image_meme, fetch_image_collage, h]

/-- A cache holding one bitmap for one URL. -/
def cacheOne : List Char → Option Img :=
  fun u => if u = "http://a.jpg".toList then some (Img.raw 7) else none

/-- A network on which every download succeeds with a fresh raw bitmap. -/
def downloadAll : List Char → Option Img := fun _ => some (Img.raw 0)

/-- Witness for C10 at a concrete one-entry cache. -/
theorem cached_image_bypasses_processing_witness :
    (∀ remove_bg,
      fetch_image_meme cacheOne downloadAll remove_bg "http://a.jpg".toList =
        some (Img.raw 7)) ∧
    (∀ remove_bg,
      fetch_image_collage cacheOne downloadAll remove_bg "http://a.jpg".toList =
        some (Img.raw 7)) ∧
    fetch_image_meme cacheOne downloadAll true "http://a.jpg".toList =
      fetch_image_meme cacheOne downloadAll false "http://a.jpg".toList ∧
    fetch_image_collage cacheOne downloadAll true "http://a.jpg".toList =
      fetch_image_collage cacheOne downloadAll false "http://a.jpg".toList :=
  cached_image_bypasses_processing cacheOne downloadAll
    "http://a.jpg".toList (Img.raw 7) (by decide)

/-- One entry of the composition plan's `text_placement` list, as
`create_meme` reads it (src/image_handler.py:390-396). -/
structure TextInfo where
  text : String
  x : Int
  y : Int
  max_width : Int
deriving DecidableEq

/-- The composition plan `create_meme` consumes: the keys read at
src/image_handler.py:309-396. -/
structure Composition where
  composition_type : String
  remove_background : Bool
  width : Int
  height : Int
  layout_type : String
  spacing : Int
  text_placement : List TextInfo
deriving DecidableEq

/-- The composed canvas.  The geometric paste arithmetic of
src/image_handler.py:325-387 raises no exception on the plans and surviving
images reaching it, so it is abstracted as the total construction of a
canvas from the plan and the surviving bitmaps in order. -/
structure Canvas where
  comp : Composition
  images : List Img
deriving DecidableEq

/-- A Python exception, as far as `create_meme`'s outer handler cares. -/
inductive PyError where
  | typeError
deriving DecidableEq

/-- The call at src/image_handler.py:391-396 passes the keyword argument
`max_width`, but `add_text_overlay` (src/image_handler.py:226) is declared
with parameters `(self, img, text, position)` only, so under Python call
semantics the call raises `TypeError: unexpected keyword argument` before
the overlay body runs. -/
def add_text_overlay_kwcall (_c : Canvas) (_t : TextInfo) : Except PyError Canvas :=
  Except.error PyError.typeError

/-- src/image_handler.py:390-396: the text-overlay loop of `create_meme`;
the first raising call aborts the loop (the exception propagates to the
outer handler). -/
def overlay_all : List TextInfo → Canvas → Except PyError Canvas
  | [], c => .ok c
  | t :: ts, c =>
    match add_text_overlay_kwcall c t with
    | .error e => .error e
    | .ok c2 => overlay_all ts c2

/-- src/image_handler.py:293-406: download/cache each image (failures
skipped), fail with `None` when none survive (lines 322-323), build the
canvas, run the text overlays, encode; any exception escaping to the outer
`except` (line 404) yields `None`. -/
def create_meme (cache download : List Char → Option Img)
    (image_data : List (List Char)) (comp : Composition) : Option Canvas :=
  let processed :=
    image_data.filterMap (fetch_image_meme cache download comp.remove_background)
  if processed.isEmpty then none
  else
    match overlay_all comp.text_placement ⟨comp, processed⟩ with
    | .ok c => some c
    | .error _ => none

/-- A single-image composition plan with one caption placement, as the
default plan of `process_meme_composition` would supply. -/
def compWithText : Composition :=
  ⟨"single", false, 600, 600, "grid", 20, [⟨"caption", 300, 550, 400⟩]⟩

/-- The same plan with no text placements. -/
def compNoText : Composition :=
  ⟨"single", false, 600, 600, "grid", 20, []⟩

/-- An empty cache. -/
def cacheEmpty : List Char → Option Img := fun _ => none

/-- C4 (code bug): with one successfully downloaded image and a plan
carrying one text placement, `create_meme` returns `None` — the overlay
call's unexpected `max_width` keyword raises `TypeError`, which the outer
handler turns into `None` — although the claim (and the compositor's
documented design) promise an encoded image whenever at least one image
downloaded.  With no text placement the same download does yield a canvas,
and with zero surviving images the result is `None` as claimed. -/
theorem create_meme_overlay_bug :
    create_meme cacheEmpty downloadAll ["http://a.jpg".toList] compWithText =
      none ∧
    create_meme cacheEmpty downloadAll ["http://a.jpg".toList] compNoText =
      some ⟨compNoText,
        [Img.converted Mode.rgb (Img.exifT (Img.raw 0))]⟩ ∧
    create_meme cacheEmpty downloadAll [] compWithText = none := by
  decide

/-! ## `GroqHandler.process_meme_composition` (src/groq_handler.py:15-100)

The model's reply is again untrusted.  A parsed reply may or may not carry
the key `target_resolution` (clamped only when present, lines 73-77) and
the key `text_placement` (`result.get("text_placement", [])`, each entry's
`max_width` read with default 400 and clamped, lines 80-81); the other keys
pass through unaltered and carry no claimed invariant, so they are not
modelled.  Any exception (malformed JSON among them) reaches the handler's
`except`, which returns the fixed default plan built from the first image's
caption (lines 85-100). -/

/-- The `target_resolution` object: a width and a height. -/
structure TargetRes where
  width : Int
  height : Int
deriving DecidableEq

/-- A raw `text_placement` entry as the model returned it: `max_width` may
be absent (`text_obj.get("max_width", 400)`). -/
structure RawTextObj where
  text : String
  x : Int
  y : Int
  max_width : Option Int
deriving DecidableEq

/-- A parsed composition reply: each clamped key may be absent. -/
structure RawComposition where
  target_resolution : Option TargetRes
  text_placement : Option (List RawTextObj)
deriving DecidableEq

/-- The composition model's reply: malformed text, or a parsed object. -/
inductive CompResponse where
  | malformed
  | parsed (r : RawComposition)
deriving DecidableEq

/-- The plan `process_meme_composition` returns, restricted to the clamped
keys. -/
structure CompositionPlan where
  target_resolution : Option TargetRes
  text_placement : Option (List TextInfo)
deriving DecidableEq

/-- src/groq_handler.py:76-77: `max(500, min(700, v))` on both axes. -/
def clampResolution (tr : TargetRes) : TargetRes :=
  ⟨max 500 (min 700 tr.width), max 500 (min 700 tr.height)⟩

/-- src/groq_handler.py:81: `min(400, text_obj.get("max_width", 400))`. -/
def clampTextObj (t : RawTextObj) : TextInfo :=
  ⟨t.text, t.x, t.y, min 400 (t.max_width.getD 400)⟩

/-- src/groq_handler.py:88-100: the fixed default plan, built from the
caption of the first available image. -/
def default_composition (caption : String) : CompositionPlan :=
  ⟨some ⟨600, 600⟩, some [⟨caption, 300, 550, 400⟩]⟩

/-- src/groq_handler.py:68-100: parse the reply, clamp `target_resolution`
when present and every `text_placement` entry's `max_width`; on any failure
return the default plan. -/
def process_meme_composition (resp : CompResponse) (caption : String) :
    CompositionPlan :=
  match resp with
  | .malformed => default_composition caption
  | .parsed r =>
    ⟨r.target_resolution.map clampResolution,
      r.text_placement.map (List.map clampTextObj)⟩

/-- C5: every plan `process_meme_composition` returns — from any reply, and
the default plan on failure alike — has its target resolution clamped into
[500, 700] on both axes and every text placement's `max_width` at most
400. -/
theorem process_meme_composition_clamped (resp : CompResponse) (caption : String) :
    (∀ tr, (process_meme_composition resp caption).target_resolution = some tr →
      500 ≤ tr.width ∧ tr.width ≤ 700 ∧ 500 ≤ tr.height ∧ tr.height ≤ 700) ∧
    (∀ l, (process_meme_composition resp caption).text_placement = some l →
      ∀ t ∈ l, t.max_width ≤ 400) := by
  cases resp with
  | malformed =>
    constructor
    · intro tr htr
      simp only [process_meme_composition, default_composition,
        Option.some.injEq] at htr
      subst htr
      refine ⟨by norm_num, by norm_num, by norm_num, by norm_num⟩
    · intro l hl t ht
      simp only [process_meme_composition, default_composition,
        Option.some.injEq] at hl
      subst hl
      simp only [List.mem_singleton] at ht
      subst ht
      norm_num
  | parsed r =>
    constructor
    · intro tr htr
      simp only [process_meme_composition, Option.map_eq_some'] at htr
      obtain ⟨tr0, _, htr0⟩ := htr
      subst htr0
      simp only [clampResolution]
      refine ⟨le_max_left _ _, ?_, le_max_left _ _, ?_⟩
      · exact max_le (by norm_num) (min_le_left _ _)
      · exact max_le (by norm_num) (min_le_left _ _)
    · intro l hl t ht
      simp only [process_meme_composition, Option.map_eq_some'] at hl
      obtain ⟨l0, _, hl0⟩ := hl
      subst hl0
      simp only [List.mem_map] at ht
      obtain ⟨t0, _, ht0⟩ := ht
      subst ht0
      simp only [clampTextObj]
      exact min_le_left _ _

/-- A reply asking for a 9000x10 resolution and a 9999-wide caption. -/
def extremeCompResponse : CompResponse :=
  .parsed ⟨some ⟨9000, 10⟩, some [⟨"t", 0, 0, some 9999⟩]⟩

/-- Witness for C5: requested width 9000 clamps to 700, height 10 to 500,
requested `max_width` 9999 to 400 — checked both concretely and through the
clamping theorem. -/
theorem process_meme_composition_clamped_witness :
    process_meme_composition extremeCompResponse "c" =
      ⟨some ⟨700, 500⟩, some [⟨"t", 0, 0, 400⟩]⟩ ∧
    (500 ≤ (700 : Int) ∧ (700 : Int) ≤ 700 ∧
      500 ≤ (500 : Int) ∧ (500 : Int) ≤ 700) :=
  ⟨by decide,
    (process_meme_composition_clamped extremeCompResponse "c").1
      ⟨700, 500⟩ (by decide)⟩

/-! ## Word wrap in `ImageHandler.add_text_overlay` (src/image_handler.py:245-265)

`text.split()` is `pySplit` (split on whitespace runs, no empty words).
The rendered pixel width of a candidate line — `draw.textbbox` of the
words joined by single spaces — depends on the font PIL found at run time,
so it is a parameter `lw` of the embedding, an arbitrary function from the
line's word list to a rational width; the bound `max_width = img.width *
0.8` is the exact rational `4/5 * width`.  A line is kept as its list of
words (the source keeps the joined string; joining is injective on the
split's output, so nothing is lost). -/

/-- Python `text.split()`: split on runs of whitespace, dropping empties.
`cur` accumulates the current word reversed. -/
def pySplitAux : List Char → List Char → List (List Char)
  | [], cur => if cur.isEmpty then [] else [cur.reverse]
  | c :: rest, cur =>
    if c.isWhitespace then
      if cur.isEmpty then pySplitAux rest [] else cur.reverse :: pySplitAux rest []
    else pySplitAux rest (c :: cur)

/-- Python `text.split()`. -/
def pySplit (s : List Char) : List (List Char) := pySplitAux s []

/-- One iteration of the wrap loop (src/image_handler.py:251-262): append
the word to the current line; if the joined line renders wider than
`maxW`, flush — the whole line when it is that single word, otherwise the
line without it, the word starting the next line. -/
def wrapStep (lw : List (List Char) → ℚ) (maxW : ℚ)
    (st : List (List (List Char)) × List (List Char)) (word : List Char) :
    List (List (List Char)) × List (List Char) :=
  let cur := st.2 ++ [word]
  if maxW < lw cur then
    if cur.length = 1 then (st.1 ++ [cur], [])
    else (st.1 ++ [st.2], [word])
  else (st.1, cur)

/-- src/image_handler.py:246-265: run the loop over all words, then flush
the remaining current line if nonempty (lines 264-265). -/
def wrapWords (lw : List (List Char) → ℚ) (maxW : ℚ)
    (words : List (List Char)) : List (List (List Char)) :=
  let st := words.foldl (wrapStep lw maxW) ([], [])
  if st.2.isEmpty then st.1 else st.1 ++ [st.2]

/-- The lines `add_text_overlay` renders for a caption on an image of the
given width (src/image_handler.py:245-265 with `max_width = img.width *
0.8`). -/
def add_text_overlay_lines (lw : List (List Char) → ℚ) (imgWidth : ℕ)
    (text : List Char) : List (List (List Char)) :=
  wrapWords lw (4 / 5 * (imgWidth : ℚ)) (pySplit text)

/-- The loop invariant: the current line is empty, was measured within the
bound, or is a single (possibly over-wide) word; every flushed line of two
or more words was measured within the bound, and every over-wide flushed
line is a single word. -/
def WrapGood (lw : List (List Char) → ℚ) (maxW : ℚ)
    (st : List (List (List Char)) × List (List Char)) : Prop :=
  (st.2 = [] ∨ lw st.2 ≤ maxW ∨ ∃ w, st.2 = [w]) ∧
  ∀ L ∈ st.1, (2 ≤ L.length → lw L ≤ maxW) ∧ (maxW < lw L → ∃ w, L = [w])

/-- The fold preserves `WrapGood` and loses no word: the flushed lines
followed by the current line always spell the input so far. -/
theorem wrap_foldl_good (lw : List (List Char) → ℚ) (maxW : ℚ)
    (words : List (List Char)) :
    ∀ st, WrapGood lw maxW st →
      WrapGood lw maxW (words.foldl (wrapStep lw maxW) st) ∧
      (words.foldl (wrapStep lw maxW) st).1.flatten ++
          (words.foldl (wrapStep lw maxW) st).2 =
        st.1.flatten ++ st.2 ++ words := by
  induction words with
  | nil => intro st hst; exact ⟨hst, by simp⟩
  | cons word rest ih =>
    intro st hst
    have hstep : WrapGood lw maxW (wrapStep lw maxW st word) ∧
        (wrapStep lw maxW st word).1.flatten ++ (wrapStep lw maxW st word).2 =
          st.1.flatten ++ st.2 ++ [word] := by
      obtain ⟨hcur, hlines⟩ := hst
      unfold wrapStep
      by_cases hover : maxW < lw (st.2 ++ [word])
      · rw [if_pos hover]
        by_cases hone : (st.2 ++ [word]).length = 1
        · rw [if_pos hone]
          have hnil : st.2 = [] := by
            rw [List.length_append, List.length_singleton] at hone
            exact List.eq_nil_of_length_eq_zero (by omega)
          constructor
          · constructor
            · exact Or.inl rfl
            · intro L hL
              rcases List.mem_append.mp hL with hL | hL
              · exact hlines L hL
              · rw [List.mem_singleton.mp hL]
                constructor
                · intro h2
                  rw [hnil] at h2
                  simp at h2
                · intro _
                  exact ⟨word, by simp [hnil]⟩
          · rw [hnil]
            simp
        · rw [if_neg hone]
          have hne : st.2 ≠ [] := by
            intro hnil
            rw [hnil] at hone
            simp at hone
          constructor
          · constructor
            · exact Or.inr (Or.inr ⟨word, rfl⟩)
            · intro L hL
              rcases List.mem_append.mp hL with hL | hL
              · exact hlines L hL
              · rw [List.mem_singleton.mp hL]
                rcases hcur with hnil | hok | ⟨w, hw⟩
                · exact absurd hnil hne
                · exact ⟨fun _ => hok, fun hbad => absurd hok (not_le.mpr hbad)⟩
                · refine ⟨fun h2 => ?_, fun _ => ⟨w, hw⟩⟩
                  rw [hw] at h2
                  simp at h2
          · simp
      · rw [if_neg hover]
        refine ⟨⟨Or.inr (Or.inl (not_lt.mp hover)), hlines⟩, ?_⟩
        simp
    obtain ⟨hg, he⟩ := ih (wrapStep lw maxW st word) hstep.1
    refine ⟨by simpa using hg, ?_⟩
    simp only [List.foldl_cons] at *
    rw [he, hstep.2, List.append_assoc]
    simp

/-- C8: the wrap emits every word of the caption, in order (the flattened
lines are exactly the split words); every emitted line of two or more
words renders within the 80%-of-image-width bound — so no line exceeds the
bound when each of its words fits alone — and any over-wide emitted line
is a single word standing alone rather than dropped. -/
theorem add_text_overlay_wrap (lw : List (List Char) → ℚ) (imgWidth : ℕ)
    (text : List Char) :
    (add_text_overlay_lines lw imgWidth text).flatten = pySplit text ∧
    ∀ L ∈ add_text_overlay_lines lw imgWidth text,
      (2 ≤ L.length → lw L ≤ 4 / 5 * (imgWidth : ℚ)) ∧
      (4 / 5 * (imgWidth : ℚ) < lw L → ∃ w, L = [w]) := by
  have hbase : WrapGood lw (4 / 5 * (imgWidth : ℚ)) ([], []) :=
    ⟨Or.inl rfl, by intro L hL; simp at hL⟩
  obtain ⟨⟨hcur, hlines⟩, hjoin⟩ :=
    wrap_foldl_good lw (4 / 5 * (imgWidth : ℚ)) (pySplit text) ([], []) hbase
  set st := (pySplit text).foldl (wrapStep lw (4 / 5 * (imgWidth : ℚ))) ([], [])
    with hstdef
  have hout : add_text_overlay_lines lw imgWidth text =
      (if st.2.isEmpty then st.1 else st.1 ++ [st.2]) := rfl
  simp only [List.nil_append, List.flatten_nil] at hjoin
  by_cases hnil : st.2.isEmpty
  · rw [hout, if_pos hnil]
    have h2 : st.2 = [] := List.isEmpty_iff.mp hnil
    rw [h2, List.append_nil] at hjoin
    exact ⟨by simpa using hjoin, fun L hL => hlines L hL⟩
  · rw [hout, if_neg hnil]
    constructor
    · rw [List.flatten_append]
      simpa using hjoin
    · intro L hL
      rcases List.mem_append.mp hL with hL | hL
      · exact hlines L hL
      · rw [List.mem_singleton.mp hL]
        rcases hcur with h2 | hok | ⟨w, hw⟩
        · exact absurd h2 (by simpa [List.isEmpty_iff] using hnil)
        · exact ⟨fun _ => hok, fun hbad => absurd hok (not_le.mpr hbad)⟩
        · refine ⟨fun h2 => ?_, fun _ => ⟨w, hw⟩⟩
          rw [hw] at h2
          simp at h2

/-! ## Turn orchestration (src/app.py:63-132, 169-191)

The chat-turn dispatch lowers the prompt and tests the trigger tag
`#play-it-safe` and the keyword `meme` as substrings (app.py:178-184).
The three pipeline stages are external calls whose outcomes are a
`Services` record; the embedding counts how many times each stage is
invoked along the taken path.  The aligned `(subject, query, caption)`
triples model the analyzer's reconciled output (by
`analyze_meme_request_reconciles`, its three lists always have equal
length).  `random.choice` (app.py:116) is modelled by the drawn index. -/

/-- One aligned entry of the analyzer's reconciled output. -/
structure VisionItem where
  subject : String
  query : String
  caption : String
deriving DecidableEq

/-- Outcomes of the external collaborators for one chat turn. -/
structure Services where
  /-- `analyze_meme_request`'s outcome (`none` = its failure value). -/
  analyzer : Option (List VisionItem)
  /-- the first URL of `search_images(query, num_images=1)` per query index,
  `none` when that search came back empty. -/
  search : ℕ → Option (List Char)
  /-- whether `create_meme` returns bytes on this turn's inputs. -/
  compose_ok : Bool
  /-- the chat-completion reply of `generate_response` in cooperative mode. -/
  chat_reply : String

/-- How many times each pipeline stage was invoked during the turn. -/
structure Counts where
  analyzer : ℕ
  search : ℕ
  compose : ℕ
deriving DecidableEq

/-- src/app.py:63-103, `generate_meme_response`: one analyzer call; on its
failure an apology; otherwise one image search per query, an apology when
none found an image, otherwise one composition (`process_meme_composition`
+ `create_meme`) whose success decides the reply. -/
def generate_meme_response (svc : Services) : String × Counts :=
  match svc.analyzer with
  | none => ("I couldn't understand the meme request. Try another prompt!", ⟨1, 0, 0⟩)
  | some vision =>
    let image_data := vision.enum.filterMap
      (fun p => (svc.search p.1).map (fun url => (url, p.2)))
    if image_data.isEmpty then
      ("I couldn't find any suitable images for your meme. Try a different prompt!",
        ⟨1, vision.length, 0⟩)
    else if svc.compose_ok then
      ("Here's your meme! How do you like it? 😎", ⟨1, vision.length, 1⟩)
    else
      ("I created the meme concept but had trouble with the image processing. Try again!",
        ⟨1, vision.length, 1⟩)

/-- src/app.py:109-115: the five canned sarcastic replies. -/
def sarcastic_responses : List String :=
  ["Oh, you want me to do something? How about... no. Try adding #play-it-safe if you're serious.",
   "Sorry, I only speak in memes, and I don't see a #play-it-safe tag. Try again!",
   "Error 404: Cooperation not found. Have you tried using #play-it-safe?",
   "I'm as helpful as a chocolate teapot right now. Use #play-it-safe for actual help.",
   "I'm currently in 'maximum sass' mode. Use #play-it-safe to switch to 'actually helpful' mode."]

/-- Whether the prompt carries the trigger tag (src/app.py:178). -/
def hasTrigger (prompt : List Char) : Bool :=
  containsSub "#play-it-safe".toList (pyLower prompt)

/-- Whether the prompt carries the keyword `meme` (src/app.py:181). -/
def hasMemeKeyword (prompt : List Char) : Bool :=
  containsSub "meme".toList (pyLower prompt)

/-- src/app.py:178-184 with src/app.py:105-132: trigger tag and keyword
`meme` run the pipeline; otherwise `generate_response`, which without the
tag returns `random.choice(sarcastic_responses)` (the drawn index `choice`)
before any service call, and with the tag forwards the prompt to one chat
completion.  The counts record the pipeline-stage invocations of the
taken path. -/
def run_turn (svc : Services) (choice : Fin sarcastic_responses.length)
    (prompt : List Char) : String × Counts :=
  if hasTrigger prompt && hasMemeKeyword prompt then
    generate_meme_response svc
  else if hasTrigger prompt then
    (svc.chat_reply, ⟨0, 0, 0⟩)
  else
    (sarcastic_responses.get choice, ⟨0, 0, 0⟩)

/-- C7: a turn whose prompt lacks the trigger tag answers with the canned
sarcastic string selected by the uniformly drawn index — every drawn index
yields its own list entry, so the choice is uniform over the five — and
invokes no pipeline stage; a turn whose prompt has both the trigger tag
and the keyword `meme` runs the pipeline exactly once: one analyzer call,
one image search per reconciled query, and at most one composition, which
becomes exactly one as soon as any search succeeds. -/
theorem run_turn_dispatch (svc : Services) (choice : Fin sarcastic_responses.length)
    (prompt : List Char) :
    (hasTrigger prompt = false →
      run_turn svc choice prompt = (sarcastic_responses.get choice, ⟨0, 0, 0⟩) ∧
      (run_turn svc choice prompt).1 ∈ sarcastic_responses) ∧
    (hasTrigger prompt = true → hasMemeKeyword prompt = true →
      (run_turn svc choice prompt).2.analyzer = 1 ∧
      (run_turn svc choice prompt).2.compose ≤ 1 ∧
      (∀ vision, svc.analyzer = some vision →
        (run_turn svc choice prompt).2.search = vision.length ∧
        ((vision.enum.filterMap
            (fun p => (svc.search p.1).map (fun url => (url, p.2)))).isEmpty = false →
          (run_turn svc choice prompt).2.compose = 1))) := by
  constructor
  · intro hno
    have hrun : run_turn svc choice prompt =
        (sarcastic_responses.get choice, ⟨0, 0, 0⟩) := by
      unfold run_turn
      rw [hno]
      simp
    refine ⟨hrun, ?_⟩
    rw [hrun]
    exact List.get_mem sarcastic_responses choice.1 choice.2
  · intro htr hme
    have hrun : run_turn svc choice prompt = generate_meme_response svc := by
      unfold run_turn
      rw [htr, hme]
      simp
    rw [hrun]
    cases hana : svc.analyzer with
    | none =>
      refine ⟨by simp [generate_meme_response, hana], by simp [generate_meme_response, hana], ?_⟩
      intro vision hv
      exact absurd hv (by simp)
    | some vision =>
      by_cases hemp : (vision.enum.filterMap
          (fun p => (svc.search p.1).map (fun url => (url, p.2)))).isEmpty = true
      · refine ⟨by simp [generate_meme_response, hana, hemp],
          by simp [generate_meme_response, hana, hemp], ?_⟩
        intro v hv
        rw [Option.some.injEq] at hv
        subst hv
        refine ⟨by simp [generate_meme_response, hana, hemp], ?_⟩
        intro hne
        exact absurd hemp (by simp [hne])
      · refine ⟨?_, ?_, ?_⟩
        · by_cases hok : svc.compose_ok <;>
            simp [generate_meme_response, hana, hemp, hok]
        · by_cases hok : svc.compose_ok <;>
            simp [generate_meme_response, hana, hemp, hok]
        · intro v hv
          rw [Option.some.injEq] at hv
          subst hv
          constructor
          · by_cases hok : svc.compose_ok <;>
              simp [generate_meme_response, hana, hemp, hok]
          · intro _
            by_cases hok : svc.compose_ok <;>
              simp [generate_meme_response, hana, hemp, hok]

end ChatMeme
